import Mathlib

/-
Shallow embedding of the reminder scheduling engine of `shtab_increase`
(`src/scheduler_service.py`, `src/database.py`, `src/handlers.py`).

Modelling conventions:
  * times of day are a pair of naturals (hour, minute), parsed from the
    store's "HH:MM" strings at the boundary;
  * calendar instants are integers counting minutes since the logical
    epoch 2000-01-01 00:00 (so 2000-01-03, a Monday, starts at minute
    2 * 1440); Python `datetime` subtraction of a `timedelta` is exact
    minute arithmetic, `.date()` difference is floor division by 1440,
    which on `Int` is `Int.ediv` (Euclidean = floor for a positive
    divisor, matching Python's `//` and `%`);
  * weekday-set strings ("0,2,6" or the literal "all") are parsed at the
    boundary into the sum type `DaysStr`;
  * APScheduler's job table is a list of (job id, job data) pairs;
    `add_job` with `replace_existing=True` drops any entry with the same
    id and appends the new one; job id strings "rem_{rid}" and
    "weekly_maintenance" are embedded as the inductive `JobId` (the
    f-string formatting is injective and the two shapes never collide);
  * the SQLite reminders table is a list of `Reminder` records; SQL
    statements become the corresponding list operations;
  * network delivery (aiogram) is external: `send_reminder_job` is
    parameterised by the delivery outcome, one constructor per `except`
    branch of the source.
-/

namespace ShtabIncrease

/-- Weekday component of a weekly schedule: the "every day" sentinel
`"all"` or a comma-joined list of day numbers (0 = Monday … 6 = Sunday),
parsed at the store boundary. -/
inductive DaysStr where
  | all : DaysStr
  | days : List Int → DaysStr
deriving DecidableEq, Repr

/-- `scheduler_service._shift_days` (lines 37-48): shift every parsed day
number by `shift` modulo 7; the sentinel `"all"`, a zero shift, and an
empty parsed list return the input unchanged.  Python `%` on a negative
left operand with positive right operand agrees with `Int.emod`. -/
def _shift_days (ds : DaysStr) (shift : Int) : DaysStr :=
  match ds with
  | DaysStr.all => DaysStr.all
  | DaysStr.days l =>
      if shift = 0 then DaysStr.days l
      else if l = [] then DaysStr.days l
      else DaysStr.days (l.map (fun d => (d + shift) % 7))

/-- `scheduler_service._convert_bot_time_to_server` (lines 51-56):
anchor the logical time of day on the reference Monday 2000-01-03,
subtract the offset, and return (server hour, server minute, day shift).
`2 * 1440` is the minute index of 2000-01-03 00:00. -/
def _convert_bot_time_to_server (hour minute : Nat) (offset_minutes : Int) :
    Int × Int × Int :=
  let base : Int := 2 * 1440 + hour * 60 + minute
  let server : Int := base - offset_minutes
  (server % 1440 / 60, server % 1440 % 60, server / 1440 - 2)

/-- Physical weekly trigger parameters produced by the compiler. -/
structure PhysicalWeekly where
  hour : Int
  minute : Int
  days : DaysStr
deriving DecidableEq, Repr

/-- The weekly branch of `scheduler_service.add_reminder_to_scheduler`
(lines 197-198): convert the time of day, then shift the weekday set by
the induced day shift. -/
def compileWeekly (hour minute : Nat) (ds : DaysStr) (offset_minutes : Int) :
    PhysicalWeekly :=
  let c := _convert_bot_time_to_server hour minute offset_minutes
  { hour := c.1, minute := c.2.1, days := _shift_days ds c.2.2 }

/-- `scheduler_service.add_reminder_to_scheduler` date branch
(lines 174-186): the physical instant is the logical instant minus the
offset; a job is produced unless the instant is strictly before `now`.
`none` is the `Skipped` outcome (the function returns without arming). -/
def compileOneShot (logical_minutes offset_minutes now : Int) : Option Int :=
  let fire_time := logical_minutes - offset_minutes
  if fire_time < now then none else some fire_time

/-- Job identifiers: `_job_id` renders `"rem_{reminder_id}"`
(`scheduler_service.py` lines 26-27); the maintenance job uses the fixed
id `"weekly_maintenance"` (line 158).  The two string shapes are
injective and disjoint, which the inductive encodes. -/
inductive JobId where
  | rem : Int → JobId
  | weekly_maintenance : JobId
deriving DecidableEq, Repr

/-- `scheduler_service._job_id` (lines 26-27). -/
def _job_id (reminder_id : Int) : JobId := JobId.rem reminder_id

/-- Physical trigger of an armed job: a weekly cron trigger (where the
`days` component `DaysStr.all` stands for an absent `day_of_week` key,
firing every day) or an absolute date trigger. -/
inductive Trigger where
  | cron : Int → Int → DaysStr → Trigger
  | date : Int → Trigger
deriving DecidableEq, Repr

/-- Payload of an armed job: the delivery-callback arguments bound at
arm time (`args=[bot, chat_id, thread_id, text, rid, needs_confirm,
is_recurring]`) together with the trigger, or the maintenance job. -/
inductive JobData where
  | reminderJob : (chat_id thread_id : Int) → (text : String) →
      (rid : Int) → (needs_confirm is_recurring : Bool) →
      (trigger : Trigger) → JobData
  | maintenanceJob : JobData
deriving DecidableEq, Repr

/-- The APScheduler job table. -/
abbrev Registry := List (JobId × JobData)

/-- `scheduler.add_job(..., id=jid, replace_existing=True)`: drop any
existing job with this id, then add the new one. -/
def add_job (reg : Registry) (jid : JobId) (j : JobData) : Registry :=
  reg.filter (fun p => p.1 ≠ jid) ++ [(jid, j)]

/-- `scheduler.remove_job(jid)` wrapped in `try/except pass`: remove if
present, no error if absent. -/
def remove_job (reg : Registry) (jid : JobId) : Registry :=
  reg.filter (fun p => p.1 ≠ jid)

/-- `scheduler.remove_all_jobs()`. -/
def remove_all_jobs (_reg : Registry) : Registry := []

/-- `scheduler.get_job(jid) is not None`. -/
def isArmed (reg : Registry) (jid : JobId) : Bool :=
  reg.any (fun p => p.1 = jid)

/-- `scheduler.get_job(jid)`: payload of the job with this id, if any. -/
def getJob (reg : Registry) (jid : JobId) : Option JobData :=
  (reg.find? (fun p => p.1 = jid)).map (fun p => p.2)

/-- Number of live jobs carrying the identifier `jid`. -/
def countId (reg : Registry) (jid : JobId) : Nat :=
  reg.countP (fun p => p.1 = jid)

/-- Identifiers of the reminder jobs in the registry (the `rem_{rid}`
ids, excluding the maintenance job). -/
def armedRemIds (reg : Registry) : List Int :=
  reg.filterMap (fun p =>
    match p.1 with
    | JobId.rem rid => some rid
    | JobId.weekly_maintenance => none)

/-- A row of the `reminders` table (`database.init_db`), as returned by
`database.get_reminders`.  The schedule is stored as a time of day
(hour, minute), a weekday string, and an optional specific date (days
since the logical epoch; `none` models SQL `NULL`). -/
structure Reminder where
  id : Int
  thread_id : Int
  text : String
  time_hour : Nat
  time_minute : Nat
  days : DaysStr
  active : Bool
  needs_confirm : Bool
  specific_date : Option Int
  is_recurring : Bool
deriving DecidableEq, Repr

/-- Logical instant of a one-shot reminder:
`datetime.strptime(f"{specific_date} {time_str}")` in minutes since the
logical epoch. -/
def logicalInstant (d : Int) (hour minute : Nat) : Int :=
  d * 1440 + hour * 60 + minute

/-- `scheduler_service.add_reminder_to_scheduler` (lines 170-211) as a
registry transformer.  `now` is the current physical instant
(`datetime.now(tz)`).  The date branch arms a `date` job with the
recurring flag hard-wired to `false` (line 192) unless the physical
instant is strictly in the past; the weekly branch converts the time,
shifts the weekday set, and arms a cron job. -/
def add_reminder_to_scheduler (now offset_minutes : Int) (reg : Registry)
    (chat_id thread_id : Int) (text : String) (rid : Int)
    (time_hour time_minute : Nat) (days : DaysStr)
    (needs_confirm : Bool) (specific_date : Option Int)
    (is_recurring : Bool) : Registry :=
  match specific_date with
  | some d =>
      let fire_time := logicalInstant d time_hour time_minute - offset_minutes
      if fire_time < now then reg
      else
        add_job reg (_job_id rid)
          (JobData.reminderJob chat_id thread_id text rid needs_confirm
            false (Trigger.date fire_time))
  | none =>
      let c := _convert_bot_time_to_server time_hour time_minute offset_minutes
      add_job reg (_job_id rid)
        (JobData.reminderJob chat_id thread_id text rid needs_confirm
          is_recurring (Trigger.cron c.1 c.2.1 (_shift_days days c.2.2)))

/-- Whether compiling this reminder's schedule evaluates to `Skipped`:
only a one-shot whose physical instant is strictly before `now`. -/
def compile_skipped (now offset_minutes : Int) (r : Reminder) : Bool :=
  match r.specific_date with
  | some d => logicalInstant d r.time_hour r.time_minute - offset_minutes < now
  | none => false

/-- `scheduler_service.load_reminders` (lines 110-127): no-op when the
`group_chat_id` setting is unbound, otherwise arm every `active` row of
the store via `add_reminder_to_scheduler`. -/
def load_reminders (now offset_minutes : Int) (chat_id : Option Int)
    (store : List Reminder) (reg : Registry) : Registry :=
  match chat_id with
  | none => reg
  | some cid =>
      store.foldl (fun acc r =>
        if r.active then
          add_reminder_to_scheduler now offset_minutes acc cid r.thread_id
            r.text r.id r.time_hour r.time_minute r.days r.needs_confirm
            r.specific_date r.is_recurring
        else acc) reg

/-- `scheduler_service.start_maintenance_jobs` (lines 149-161): install
the fixed weekly maintenance trigger under id `"weekly_maintenance"`
with `replace_existing=True`. -/
def start_maintenance_jobs (reg : Registry) : Registry :=
  add_job reg JobId.weekly_maintenance JobData.maintenanceJob

/-- `scheduler_service.reload_scheduler` (lines 163-168): clear the
registry, re-install the maintenance trigger, then load again. -/
def reload_scheduler (now offset_minutes : Int) (chat_id : Option Int)
    (store : List Reminder) (reg : Registry) : Registry :=
  load_reminders now offset_minutes chat_id store
    (start_maintenance_jobs (remove_all_jobs reg))

/-- `database.delete_reminder` (lines 205-209):
`DELETE FROM reminders WHERE id = ?`. -/
def delete_reminder (store : List Reminder) (reminder_id : Int) :
    List Reminder :=
  store.filter (fun r => r.id ≠ reminder_id)

/-- `database.toggle_reminder_status` (lines 211-221): read the row's
`active` flag, flip it (`new_val = 0 if row[0] == 1 else 1`), update the
table, and return the new state (`none` when no row matches). -/
def toggle_reminder_status (store : List Reminder) (reminder_id : Int) :
    List Reminder × Option Bool :=
  match store.find? (fun r => r.id = reminder_id) with
  | none => (store, none)
  | some row =>
      let new_val := !row.active
      (store.map (fun r =>
          if r.id = reminder_id then { r with active := new_val } else r),
        some new_val)

/-- Joint state of the persisted store and the live registry. -/
structure SysState where
  store : List Reminder
  registry : Registry
deriving DecidableEq, Repr

/-- Outcome of one delivery attempt, one constructor per control path of
`scheduler_service.send_reminder_job`: success, `TelegramForbiddenError`,
`TelegramBadRequest` whose message contains "thread not found" or
"chat not found", any other `TelegramBadRequest`, any other exception. -/
inductive SendOutcome where
  | success : SendOutcome
  | forbidden : SendOutcome
  | badRequestInvalidTarget : SendOutcome
  | badRequestOther : SendOutcome
  | otherError : SendOutcome
deriving DecidableEq, Repr

/-- `scheduler_service.send_reminder_job` (lines 69-108) restricted to
its store/registry effects (message construction and delivery are the
external Notifier, summarised by `outcome`): on success a non-recurring
reminder is deleted and its job removed; on an invalid-target
`BadRequest` the reminder is toggled and its job removed; every other
branch only logs. -/
def send_reminder_job (st : SysState) (rid : Int) (is_recurring : Bool)
    (outcome : SendOutcome) : SysState :=
  match outcome with
  | SendOutcome.success =>
      if is_recurring then st
      else
        { store := delete_reminder st.store rid,
          registry := remove_job st.registry (_job_id rid) }
  | SendOutcome.forbidden => st
  | SendOutcome.badRequestInvalidTarget =>
      { store := (toggle_reminder_status st.store rid).1,
        registry := remove_job st.registry (_job_id rid) }
  | SendOutcome.badRequestOther => st
  | SendOutcome.otherError => st

/-- `handlers.tog_rem_h` (lines 333-339): the toggle callback flips the
row's `active` flag in the store and refreshes the listing; it performs
no scheduler call, so the registry is untouched. -/
def tog_rem_h (st : SysState) (rid : Int) : SysState :=
  { st with store := (toggle_reminder_status st.store rid).1 }

/-! ### Registry lemmas -/

theorem countId_append (l1 l2 : Registry) (jid : JobId) :
    countId (l1 ++ l2) jid = countId l1 jid + countId l2 jid := by
  unfold countId
  exact List.countP_append _ _ _

theorem countId_remove_job_self (reg : Registry) (jid : JobId) :
    countId (remove_job reg jid) jid = 0 := by
  unfold countId remove_job
  induction reg with
  | nil => simp
  | cons a l ih =>
      rw [List.filter_cons]
      by_cases ha : a.1 = jid <;> simp [ha, List.countP_cons, ih]

theorem countId_remove_job_ne (reg : Registry) {jid jid2 : JobId}
    (h : jid2 ≠ jid) :
    countId (remove_job reg jid) jid2 = countId reg jid2 := by
  unfold countId remove_job
  induction reg with
  | nil => simp
  | cons a l ih =>
      rw [List.filter_cons]
      by_cases ha : a.1 = jid
      · have hif : ¬(decide (a.1 ≠ jid) = true) := by simp [ha]
        rw [if_neg hif, ih, List.countP_cons]
        have hne : ¬(decide (a.1 = jid2) = true) := by
          simp only [decide_eq_true_eq, ha]
          exact fun hc => h hc.symm
        simp [hne]
      · have hif : decide (a.1 ≠ jid) = true := by simp [ha]
        rw [if_pos hif, List.countP_cons, List.countP_cons, ih]

theorem countId_singleton (jid : JobId) (j : JobData) (jid2 : JobId) :
    countId [(jid, j)] jid2 = if jid2 = jid then 1 else 0 := by
  unfold countId
  by_cases h : jid2 = jid <;> simp [h, List.countP_cons, eq_comm]

/-- `add_job` with `replace_existing=True` leaves exactly one job for
the added id and does not change the multiplicity of any other id. -/
theorem countId_add_job (reg : Registry) (jid : JobId) (j : JobData)
    (jid2 : JobId) :
    countId (add_job reg jid j) jid2 =
      if jid2 = jid then 1 else countId reg jid2 := by
  have hsplit : add_job reg jid j = remove_job reg jid ++ [(jid, j)] := rfl
  rw [hsplit, countId_append, countId_singleton]
  by_cases h : jid2 = jid
  · subst h
    rw [countId_remove_job_self]
    simp
  · rw [countId_remove_job_ne reg h]
    simp [h]

/-- The job looked up right after `add_job` is the one just added. -/
theorem getJob_add_job (reg : Registry) (jid : JobId) (j : JobData) :
    getJob (add_job reg jid j) jid = some j := by
  unfold getJob add_job
  rw [List.find?_append]
  have h1 : (reg.filter (fun p => p.1 ≠ jid)).find? (fun p => p.1 = jid)
      = none := by
    rw [List.find?_eq_none]
    intro p hp
    have := List.of_mem_filter hp
    simp at this ⊢
    exact this
  rw [h1]
  simp

theorem isArmed_append (l1 l2 : Registry) (jid : JobId) :
    isArmed (l1 ++ l2) jid = (isArmed l1 jid || isArmed l2 jid) := by
  unfold isArmed
  exact List.any_append

/-- A removed id is no longer armed. -/
theorem isArmed_remove_job (reg : Registry) (jid : JobId) :
    isArmed (remove_job reg jid) jid = false := by
  unfold isArmed remove_job
  induction reg with
  | nil => simp
  | cons a l ih =>
      rw [List.filter_cons]
      by_cases ha : a.1 = jid <;> simp_all

theorem isArmed_remove_job_ne (reg : Registry) {jid jid2 : JobId}
    (h : jid2 ≠ jid) :
    isArmed (remove_job reg jid) jid2 = isArmed reg jid2 := by
  unfold isArmed remove_job
  induction reg with
  | nil => simp
  | cons a l ih =>
      rw [List.filter_cons]
      by_cases ha : a.1 = jid
      · have hif : ¬(decide (a.1 ≠ jid) = true) := by simp [ha]
        rw [if_neg hif, ih, List.any_cons]
        have hne : ¬(decide (a.1 = jid2) = true) := by
          simp only [decide_eq_true_eq, ha]
          exact fun hc => h hc.symm
        simp [hne]
      · have hif : decide (a.1 ≠ jid) = true := by simp [ha]
        rw [if_pos hif, List.any_cons, List.any_cons, ih]

theorem isArmed_add_job (reg : Registry) (jid : JobId) (j : JobData)
    (jid2 : JobId) :
    isArmed (add_job reg jid j) jid2 = ((jid2 = jid) || isArmed reg jid2) := by
  have hsplit : add_job reg jid j = remove_job reg jid ++ [(jid, j)] := rfl
  rw [hsplit, isArmed_append]
  by_cases h : jid2 = jid
  · subst h
    simp [isArmed]
  · rw [isArmed_remove_job_ne reg h]
    have h1 : isArmed [(jid, j)] jid2 = false := by
      simp [isArmed]
      exact fun hc => h hc.symm
    rw [h1]
    simp [h]

theorem mem_armedRemIds {reg : Registry} {rid : Int} :
    rid ∈ armedRemIds reg ↔ ∃ p ∈ reg, p.1 = JobId.rem rid := by
  unfold armedRemIds
  rw [List.mem_filterMap]
  constructor
  · rintro ⟨a, ha, hfa⟩
    refine ⟨a, ha, ?_⟩
    cases h : a.1 with
    | rem r => rw [h] at hfa; simp at hfa; rw [hfa]
    | weekly_maintenance => rw [h] at hfa; simp at hfa
  · rintro ⟨a, ha, h1⟩
    exact ⟨a, ha, by rw [h1]⟩

theorem mem_armedRemIds_add_job {reg : Registry} {jid : JobId} {j : JobData}
    {rid : Int} :
    rid ∈ armedRemIds (add_job reg jid j) ↔
      jid = JobId.rem rid ∨ rid ∈ armedRemIds reg := by
  rw [mem_armedRemIds, mem_armedRemIds]
  unfold add_job
  constructor
  · rintro ⟨p, hp, hp1⟩
    rcases List.mem_append.1 hp with h | h
    · exact Or.inr ⟨p, List.mem_of_mem_filter h, hp1⟩
    · have hpj : p = (jid, j) := by simpa using h
      subst hpj
      exact Or.inl hp1
  · rintro (h | ⟨p, hp, hp1⟩)
    · exact ⟨(jid, j), List.mem_append.2 (Or.inr (by simp)), h⟩
    · by_cases hj : p.1 = jid
      · refine ⟨(jid, j), List.mem_append.2 (Or.inr (by simp)), ?_⟩
        rw [← hj]
        exact hp1
      · refine ⟨p, List.mem_append.2 (Or.inl ?_), hp1⟩
        rw [List.mem_filter]
        exact ⟨hp, by simpa using hj⟩

/-! ### Load / reload lemmas -/

theorem mem_armedRemIds_arts {now offset : Int} {reg : Registry} {cid : Int}
    (r : Reminder) {rid2 : Int} :
    rid2 ∈ armedRemIds (add_reminder_to_scheduler now offset reg cid
        r.thread_id r.text r.id r.time_hour r.time_minute r.days
        r.needs_confirm r.specific_date r.is_recurring) ↔
      (r.id = rid2 ∧ compile_skipped now offset r = false)
        ∨ rid2 ∈ armedRemIds reg := by
  unfold add_reminder_to_scheduler compile_skipped
  cases hsd : r.specific_date with
  | none =>
      dsimp only
      rw [mem_armedRemIds_add_job]
      unfold _job_id
      simp
  | some d =>
      dsimp only
      by_cases hf :
          logicalInstant d r.time_hour r.time_minute - offset < now
      · rw [if_pos hf]
        simp [hf]
      · rw [if_neg hf, mem_armedRemIds_add_job]
        unfold _job_id
        simp [hf]

theorem mem_armedRemIds_load {now offset : Int} {cid : Int} {rid2 : Int} :
    ∀ (store : List Reminder) (reg : Registry),
      rid2 ∈ armedRemIds (load_reminders now offset (some cid) store reg) ↔
        (∃ r ∈ store, r.active = true ∧ compile_skipped now offset r = false
            ∧ r.id = rid2)
          ∨ rid2 ∈ armedRemIds reg := by
  intro store
  induction store with
  | nil => intro reg; simp [load_reminders]
  | cons r l ih =>
      intro reg
      show rid2 ∈ armedRemIds (List.foldl _ reg (r :: l)) ↔ _
      rw [List.foldl_cons]
      by_cases hr : r.active = true
      · rw [if_pos hr]
        have hstep := ih (add_reminder_to_scheduler now offset reg cid
          r.thread_id r.text r.id r.time_hour r.time_minute r.days
          r.needs_confirm r.specific_date r.is_recurring)
        rw [show List.foldl _ _ l =
            load_reminders now offset (some cid) l
              (add_reminder_to_scheduler now offset reg cid r.thread_id
                r.text r.id r.time_hour r.time_minute r.days r.needs_confirm
                r.specific_date r.is_recurring) from rfl]
        rw [hstep, mem_armedRemIds_arts r]
        simp only [List.mem_cons]
        constructor
        · rintro (⟨x, hx, hprop⟩ | (⟨h1, h2⟩ | h))
          · exact Or.inl ⟨x, Or.inr hx, hprop⟩
          · exact Or.inl ⟨r, Or.inl rfl, hr, h2, h1⟩
          · exact Or.inr h
        · rintro (⟨x, hx | hx, hprop⟩ | h)
          · subst hx
            exact Or.inr (Or.inl ⟨hprop.2.2, hprop.2.1⟩)
          · exact Or.inl ⟨x, hx, hprop⟩
          · exact Or.inr (Or.inr h)
      · rw [if_neg hr]
        have hstep := ih reg
        rw [show List.foldl _ _ l =
            load_reminders now offset (some cid) l reg from rfl]
        rw [hstep]
        simp only [List.mem_cons]
        constructor
        · rintro (⟨x, hx, hprop⟩ | h)
          · exact Or.inl ⟨x, Or.inr hx, hprop⟩
          · exact Or.inr h
        · rintro (⟨x, hx | hx, hprop⟩ | h)
          · subst hx
            exact absurd hprop.1 hr
          · exact Or.inl ⟨x, hx, hprop⟩
          · exact Or.inr h

theorem isArmed_load_of_isArmed {now offset : Int} {cid : Int}
    {jid : JobId} :
    ∀ (store : List Reminder) (reg : Registry),
      isArmed reg jid = true →
      isArmed (load_reminders now offset (some cid) store reg) jid = true := by
  intro store
  induction store with
  | nil => intro reg h; simpa [load_reminders] using h
  | cons r l ih =>
      intro reg h
      show isArmed (List.foldl _ reg (r :: l)) jid = true
      rw [List.foldl_cons]
      by_cases hr : r.active = true
      · rw [if_pos hr]
        refine ih _ ?_
        unfold add_reminder_to_scheduler
        cases hsd : r.specific_date with
        | none =>
            dsimp only
            rw [isArmed_add_job]
            simp [h]
        | some d =>
            dsimp only
            by_cases hf :
                logicalInstant d r.time_hour r.time_minute - offset < now
            · rw [if_pos hf]
              exact h
            · rw [if_neg hf, isArmed_add_job]
              simp [h]
      · rw [if_neg hr]
        exact ih reg h

/-! ### Store lemmas -/

theorem find?_update_active (l : List Reminder) (rid : Int) (r : Reminder)
    (v : Bool) (h : l.find? (fun x => x.id = rid) = some r) :
    (l.map (fun x => if x.id = rid then { x with active := v } else x)).find?
        (fun x => x.id = rid) = some { r with active := v } := by
  induction l with
  | nil => simp at h
  | cons a t ih =>
      by_cases ha : a.id = rid
      · rw [List.find?_cons_of_pos _ (by simpa using ha)] at h
        have har : a = r := by injection h
        subst har
        rw [List.map_cons, if_pos ha]
        exact List.find?_cons_of_pos _ (by simpa using ha)
      · rw [List.find?_cons_of_neg _ (by simpa using ha)] at h
        rw [List.map_cons, if_neg ha,
          List.find?_cons_of_neg _ (by simpa using ha)]
        exact ih h

theorem filter_ne_update_active (l : List Reminder) (rid : Int) (v : Bool) :
    (l.map (fun x => if x.id = rid then { x with active := v } else x)).filter
        (fun x => x.id ≠ rid)
      = l.filter (fun x => x.id ≠ rid) := by
  induction l with
  | nil => simp
  | cons a t ih =>
      rw [List.map_cons]
      by_cases ha : a.id = rid
      · rw [if_pos ha, List.filter_cons, List.filter_cons]
        have h1 : ¬(decide (({ a with active := v } : Reminder).id ≠ rid)
            = true) := by simp [ha]
        have h2 : ¬(decide (a.id ≠ rid) = true) := by simp [ha]
        rw [if_neg h1, if_neg h2, ih]
      · rw [if_neg ha, List.filter_cons, List.filter_cons]
        have h2 : decide (a.id ≠ rid) = true := by simp [ha]
        rw [if_pos h2, if_pos h2, ih]

theorem map_id_update_active (l : List Reminder) (rid : Int) (v : Bool) :
    (l.map (fun x => if x.id = rid then { x with active := v } else x)).map
        (fun x => x.id) = l.map (fun x => x.id) := by
  rw [List.map_map]
  apply List.map_congr_left
  intro a _
  by_cases ha : a.id = rid <;> simp [Function.comp, ha]

/-- The store after a toggle carries the same ids in the same order. -/
theorem map_id_toggle (s : List Reminder) (rid : Int) :
    ((toggle_reminder_status s rid).1).map (fun r => r.id)
      = s.map (fun r => r.id) := by
  unfold toggle_reminder_status
  cases h : s.find? (fun r => r.id = rid) with
  | none => rfl
  | some row =>
      dsimp only
      exact map_id_update_active s rid (!row.active)

/-- A deleted id satisfies the delete predicate on every surviving row. -/
theorem delete_all_ne (store : List Reminder) (rid : Int) :
    (delete_reminder store rid).all (fun r => r.id ≠ rid) = true := by
  unfold delete_reminder
  rw [List.all_eq_true]
  intro x hx
  have hmem := List.of_mem_filter hx
  simpa using hmem

/-! ### Claims -/

/-- C1: after `reload_scheduler` completes (with the group chat bound),
the set of reminder job identifiers armed in the registry exactly equals
the set of identifiers of reminders that are active in the store and
whose schedule compiled without being `Skipped`; the fixed maintenance
trigger is re-installed.  `reload_scheduler` clears all jobs,
re-installs the maintenance trigger, then arms each active reminder. -/
theorem c1_reload_registry_matches_store (now offset cid : Int)
    (store : List Reminder) (reg : Registry) (rid : Int) :
    (rid ∈ armedRemIds (reload_scheduler now offset (some cid) store reg) ↔
      ∃ r ∈ store, r.active = true ∧ compile_skipped now offset r = false
        ∧ r.id = rid)
    ∧ isArmed (reload_scheduler now offset (some cid) store reg)
        JobId.weekly_maintenance = true := by
  constructor
  · unfold reload_scheduler
    rw [mem_armedRemIds_load store (start_maintenance_jobs
      (remove_all_jobs reg))]
    have hbase : rid ∉ armedRemIds (start_maintenance_jobs
        (remove_all_jobs reg)) := by
      simp [start_maintenance_jobs, remove_all_jobs, add_job, armedRemIds]
    exact or_iff_left hbase
  · unfold reload_scheduler
    apply isArmed_load_of_isArmed
    simp [start_maintenance_jobs, remove_all_jobs, isArmed, add_job]

/-- C2: `compileWeekly` applies the offset-induced day shift to every
weekday in the set modulo 7: logical 00:30 on {Monday} with offset +120
compiles to physical 22:30 on {Sunday} (day shift −1), and logical
23:30 on {Monday} with offset −120 compiles to physical 01:30 on
{Tuesday} (day shift +1). -/
theorem c2_compile_weekly_day_shift :
    compileWeekly 0 30 (DaysStr.days [0]) 120
        = ⟨22, 30, DaysStr.days [6]⟩
    ∧ _convert_bot_time_to_server 0 30 120 = (22, 30, -1)
    ∧ compileWeekly 23 30 (DaysStr.days [0]) (-120)
        = ⟨1, 30, DaysStr.days [1]⟩
    ∧ _convert_bot_time_to_server 23 30 (-120) = (1, 30, 1)
    ∧ ∀ (l : List Int) (s : Int), s ≠ 0 → l ≠ [] →
        _shift_days (DaysStr.days l) s
          = DaysStr.days (l.map (fun d => (d + s) % 7)) := by
  refine ⟨by decide, by decide, by decide, by decide, ?_⟩
  intro l s hs hl
  unfold _shift_days
  dsimp only
  rw [if_neg hs, if_neg hl]

/-- C2 witness: the generic modulo-7 shift evaluated on the concrete
weekday set {Monday, Wednesday, Sunday} with day shift −1. -/
theorem c2_compile_weekly_day_shift_witness :
    _shift_days (DaysStr.days [0, 2, 6]) (-1) = DaysStr.days [6, 1, 5] := by
  have h := c2_compile_weekly_day_shift.2.2.2.2 [0, 2, 6] (-1)
    (by decide) (by decide)
  rw [h]
  decide

/-- C3: for every time of day and every offset, compiling a weekly
schedule whose weekday component is the "every day" sentinel leaves that
component equal to the sentinel; the sentinel is invariant under any day
shift and is never expanded into an explicit set. -/
theorem c3_all_sentinel_invariant :
    ∀ (hour minute : Nat) (offset : Int),
      (compileWeekly hour minute DaysStr.all offset).days = DaysStr.all
      ∧ ∀ s : Int, _shift_days DaysStr.all s = DaysStr.all :=
  fun _ _ _ => ⟨rfl, fun _ => rfl⟩

/-- C4 counterexample: at a physical instant exactly equal to the
current physical time (10:00 on the epoch day with zero offset, now =
minute 600), the instant is not strictly in the future, yet the
compiler does not return `Skipped` and the job is armed — refuting the
claim's "exactly when not strictly in the future". -/
theorem c4_boundary_counterexample :
    logicalInstant 0 10 0 - 0 ≤ 600
    ∧ compileOneShot (logicalInstant 0 10 0) 0 600 ≠ none
    ∧ isArmed (add_reminder_to_scheduler 600 0 [] 1 1 "t" 5 10 0
        DaysStr.all false (some 0) false) (_job_id 5) = true := by
  refine ⟨by decide, by decide, by decide⟩

/-- C4 (amended): `compileOneShot` returns `Skipped`, and no job is
armed, exactly when the physical instant (logical date+time minus
offset) is strictly before the current physical time; a skipped
one-shot leaves the registry untouched, and otherwise the job is
armed. -/
theorem c4_oneshot_skip_iff_strictly_past :
    ∀ (now offset : Int) (reg : Registry) (cid th : Int) (tx : String)
      (rid : Int) (hh mm : Nat) (ds : DaysStr) (nc : Bool) (d : Int)
      (rec : Bool),
      (compileOneShot (logicalInstant d hh mm) offset now = none ↔
        logicalInstant d hh mm - offset < now)
      ∧ (logicalInstant d hh mm - offset < now →
          add_reminder_to_scheduler now offset reg cid th tx rid hh mm ds
            nc (some d) rec = reg)
      ∧ (¬ logicalInstant d hh mm - offset < now →
          isArmed (add_reminder_to_scheduler now offset reg cid th tx rid
            hh mm ds nc (some d) rec) (_job_id rid) = true) := by
  intro now offset reg cid th tx rid hh mm ds nc d rec
  refine ⟨?_, ?_, ?_⟩
  · unfold compileOneShot
    by_cases hf : logicalInstant d hh mm - offset < now
    · simp [hf]
    · simp [hf]
  · intro hf
    unfold add_reminder_to_scheduler
    dsimp only
    rw [if_pos hf]
  · intro hf
    unfold add_reminder_to_scheduler
    dsimp only
    rw [if_neg hf, isArmed_add_job]
    simp

/-- C4 witness: a one-shot strictly in the past (09:00 before now = 600)
arms nothing; a one-shot strictly in the future (epoch day 1 seen from
now = 0) is armed. -/
theorem c4_oneshot_witness :
    add_reminder_to_scheduler 600 0 [] 1 1 "t" 7 9 0 DaysStr.all false
        (some 0) false = []
    ∧ isArmed (add_reminder_to_scheduler 0 0 [] 1 1 "t" 7 10 0 DaysStr.all
        false (some 1) false) (_job_id 7) = true :=
  ⟨(c4_oneshot_skip_iff_strictly_past 600 0 [] 1 1 "t" 7 9 0 DaysStr.all
      false 0 false).2.1 (by decide),
    (c4_oneshot_skip_iff_strictly_past 0 0 [] 1 1 "t" 7 10 0 DaysStr.all
      false 1 false).2.2 (by decide)⟩

/-- C5: on a successful delivery, a non-recurring reminder is deleted
from the store and its job removed from the registry, while a recurring
one leaves store and registry intact; no other outcome removes a store
record (success of a non-recurring reminder is the only consuming
path). -/
theorem c5_success_consumes_one_shot :
    ∀ (st : SysState) (rid : Int) (rec : Bool),
      (send_reminder_job st rid false SendOutcome.success).store.all
          (fun r => r.id ≠ rid) = true
      ∧ isArmed (send_reminder_job st rid false
          SendOutcome.success).registry (_job_id rid) = false
      ∧ send_reminder_job st rid true SendOutcome.success = st
      ∧ (send_reminder_job st rid rec SendOutcome.forbidden).store.map
          (fun r => r.id) = st.store.map (fun r => r.id)
      ∧ (send_reminder_job st rid rec
            SendOutcome.badRequestInvalidTarget).store.map (fun r => r.id)
          = st.store.map (fun r => r.id)
      ∧ (send_reminder_job st rid rec SendOutcome.badRequestOther).store.map
          (fun r => r.id) = st.store.map (fun r => r.id)
      ∧ (send_reminder_job st rid rec SendOutcome.otherError).store.map
          (fun r => r.id) = st.store.map (fun r => r.id) := by
  intro st rid rec
  exact ⟨delete_all_ne st.store rid,
    isArmed_remove_job st.registry (_job_id rid), rfl, rfl,
    map_id_toggle st.store rid, rfl, rfl⟩

/-- C6: a delivery failure classified as "target no longer resolvable"
flips the fired reminder's `active` flag to false and removes its job
from the registry, while every other field of the record and every
other record of the store are unchanged. -/
theorem c6_invalid_target_disables (st : SysState) (rid : Int)
    (r : Reminder) (rec : Bool)
    (hfind : st.store.find? (fun x => x.id = rid) = some r)
    (hact : r.active = true) :
    (send_reminder_job st rid rec
        SendOutcome.badRequestInvalidTarget).store.find?
        (fun x => x.id = rid) = some { r with active := false }
    ∧ isArmed (send_reminder_job st rid rec
        SendOutcome.badRequestInvalidTarget).registry (_job_id rid) = false
    ∧ (send_reminder_job st rid rec
          SendOutcome.badRequestInvalidTarget).store.filter
          (fun x => x.id ≠ rid)
        = st.store.filter (fun x => x.id ≠ rid) := by
  have hv : (!r.active) = false := by rw [hact]; rfl
  refine ⟨?_, isArmed_remove_job st.registry (_job_id rid), ?_⟩
  · show ((toggle_reminder_status st.store rid).1).find?
        (fun x => x.id = rid) = some { r with active := false }
    unfold toggle_reminder_status
    rw [hfind]
    dsimp only
    have h := find?_update_active st.store rid r (!r.active) hfind
    rw [hv] at h ⊢
    exact h
  · show ((toggle_reminder_status st.store rid).1).filter
        (fun x => x.id ≠ rid) = st.store.filter (fun x => x.id ≠ rid)
    unfold toggle_reminder_status
    rw [hfind]
    dsimp only
    exact filter_ne_update_active st.store rid (!r.active)

/-- C6 witness: the invalid-target outcome evaluated on a one-reminder
store whose job is armed. -/
theorem c6_invalid_target_witness :
    (send_reminder_job
        ⟨[⟨1, 1, "x", 9, 0, DaysStr.all, true, false, none, true⟩],
          [(JobId.rem 1, JobData.maintenanceJob)]⟩ 1 true
        SendOutcome.badRequestInvalidTarget).store.find?
        (fun x => x.id = 1)
      = some ⟨1, 1, "x", 9, 0, DaysStr.all, false, false, none, true⟩
    ∧ isArmed (send_reminder_job
        ⟨[⟨1, 1, "x", 9, 0, DaysStr.all, true, false, none, true⟩],
          [(JobId.rem 1, JobData.maintenanceJob)]⟩ 1 true
        SendOutcome.badRequestInvalidTarget).registry (_job_id 1) = false
    ∧ (send_reminder_job
        ⟨[⟨1, 1, "x", 9, 0, DaysStr.all, true, false, none, true⟩],
          [(JobId.rem 1, JobData.maintenanceJob)]⟩ 1 true
        SendOutcome.badRequestInvalidTarget).store.filter
        (fun x => x.id ≠ 1)
      = ([⟨1, 1, "x", 9, 0, DaysStr.all, true, false, none, true⟩] :
          List Reminder).filter (fun x => x.id ≠ 1) :=
  c6_invalid_target_disables
    ⟨[⟨1, 1, "x", 9, 0, DaysStr.all, true, false, none, true⟩],
      [(JobId.rem 1, JobData.maintenanceJob)]⟩ 1
    ⟨1, 1, "x", 9, 0, DaysStr.all, true, false, none, true⟩ true rfl rfl

/-- C7: a delivery failure classified as "destination permanently
unreachable", any other `BadRequest`, and any other error are only
logged: store and registry are left exactly unchanged, for one-shot and
recurring reminders alike. -/
theorem c7_non_target_failures_unchanged :
    ∀ (st : SysState) (rid : Int) (rec : Bool),
      send_reminder_job st rid rec SendOutcome.forbidden = st
      ∧ send_reminder_job st rid rec SendOutcome.badRequestOther = st
      ∧ send_reminder_job st rid rec SendOutcome.otherError = st :=
  fun _ _ _ => ⟨rfl, rfl, rfl⟩

/-- C8: arming under an id that is already armed replaces the existing
job instead of adding a second one: after any `add_job` there is
exactly one live job for the armed reminder id, the multiplicity of
every other id is untouched, and arming twice still leaves exactly
one. -/
theorem c8_arm_replaces_not_accumulates :
    ∀ (reg : Registry) (rid : Int) (j1 j2 : JobData) (jid2 : JobId),
      countId (add_job reg (_job_id rid) j1) jid2
        = (if jid2 = _job_id rid then 1 else countId reg jid2)
      ∧ countId (add_job (add_job reg (_job_id rid) j1) (_job_id rid) j2)
          (_job_id rid) = 1 := by
  intro reg rid j1 j2 jid2
  refine ⟨countId_add_job reg (_job_id rid) j1 jid2, ?_⟩
  rw [countId_add_job]
  simp

/-- C9: the toggle handler only flips the store's `active` flag — the
registry is never updated.  Evaluated at a concrete armed active
reminder: after the toggle the record is inactive yet its job is still
armed, diverging from the claimed incremental arm/remove. -/
theorem c9_toggle_never_updates_registry :
    (tog_rem_h
        ⟨[⟨1, 1, "x", 9, 0, DaysStr.all, true, false, none, true⟩],
          [(JobId.rem 1, JobData.reminderJob 5 1 "x" 1 false true
            (Trigger.cron 9 0 DaysStr.all))]⟩ 1).store.map
        (fun r => r.active) = [false]
    ∧ isArmed (tog_rem_h
        ⟨[⟨1, 1, "x", 9, 0, DaysStr.all, true, false, none, true⟩],
          [(JobId.rem 1, JobData.reminderJob 5 1 "x" 1 false true
            (Trigger.cron 9 0 DaysStr.all))]⟩ 1).registry (_job_id 1)
      = true
    ∧ ∀ (st : SysState) (rid : Int), (tog_rem_h st rid).registry
        = st.registry :=
  ⟨by decide, by decide, fun _ _ => rfl⟩

/-- C10: arming a reminder with a non-null specific date binds the
delivery callback with the recurring flag false regardless of the
stored `is_recurring` value, so a date-specific reminder that fires and
delivers successfully is deleted from the store and unscheduled. -/
theorem c10_date_reminders_bound_nonrecurring :
    ∀ (now offset : Int) (reg : Registry) (cid th : Int) (tx : String)
      (rid : Int) (hh mm : Nat) (ds : DaysStr) (nc : Bool) (d : Int)
      (rec : Bool),
      ¬ logicalInstant d hh mm - offset < now →
      getJob (add_reminder_to_scheduler now offset reg cid th tx rid hh mm
          ds nc (some d) rec) (_job_id rid)
        = some (JobData.reminderJob cid th tx rid nc false
            (Trigger.date (logicalInstant d hh mm - offset)))
      ∧ ∀ st : SysState,
          (send_reminder_job st rid false SendOutcome.success).store.all
            (fun r => r.id ≠ rid) = true
          ∧ isArmed (send_reminder_job st rid false
              SendOutcome.success).registry (_job_id rid) = false := by
  intro now offset reg cid th tx rid hh mm ds nc d rec hf
  refine ⟨?_, ?_⟩
  · unfold add_reminder_to_scheduler
    dsimp only
    rw [if_neg hf]
    exact getJob_add_job reg (_job_id rid) _
  · intro st
    exact ⟨delete_all_ne st.store rid,
      isArmed_remove_job st.registry (_job_id rid)⟩

/-- C10 witness: a date reminder whose store record says recurring is
armed with the callback's recurring flag false, and a success firing
with that flag deletes the record. -/
theorem c10_date_reminders_witness :
    getJob (add_reminder_to_scheduler 0 0 [] 1 2 "t" 9 10 30 DaysStr.all
        false (some 1) true) (_job_id 9)
      = some (JobData.reminderJob 1 2 "t" 9 false false
          (Trigger.date (logicalInstant 1 10 30 - 0)))
    ∧ (send_reminder_job ⟨[], []⟩ 9 false SendOutcome.success).store.all
        (fun r => r.id ≠ 9) = true :=
  have h := c10_date_reminders_bound_nonrecurring 0 0 [] 1 2 "t" 9 10 30
    DaysStr.all false 1 true (by decide)
  ⟨h.1, (h.2 ⟨[], []⟩).1⟩

end ShtabIncrease
